import Mathlib

/-!
Verification development for the `mars` Core War (MARS) emulator.

This file contains a shallow embedding, in Lean 4, of the parts of the
repository that the verified properties talk about:

* the execution engine of `src/core/mod.rs` (`Core::fold`,
  `Core::evaluate_operand`, `Core::run_once`) together with the engine
  configuration defaults of `src/core/corebuilder.rs`;
* the numeric-expression evaluator of `src/parser/numeric_expr.rs`
  (`NumericExpr::evaluate`);
* the line parser and the definition-substitution pass of
  `src/parser/mod.rs` (`lines`, `replace_definitions`), including the nom
  combinators they are built from and Rust's `str::replace`.

Conventions of the embedding:

* Rust `usize` values are modelled as `Nat`.  Arithmetic that can panic in
  the source is modelled in `Option`, with `none` standing for a panic:
  `a - b` on `usize` panics when `b > a` (debug overflow check, the mode the
  repository's test-suite runs under), `a / b` and `a % b` panic when
  `b = 0` (in every build mode), and `v[i]` panics when `i` is out of
  bounds.  Wrap-around at `2 ^ 64` for `+`, `*` and `+= 1` is not modelled:
  none of the properties below involves values anywhere near `2 ^ 64`.
* `VecDeque<usize>` task queues are modelled as `List Nat` with the front
  of the queue at the head; `pop_front` takes the head and `push_back`
  appends at the tail.
* Fallible Rust functions (`Result`) are modelled with `Except`/`Option`.
-/

namespace Mars

/-- Opcodes of `src/parser/instruction.rs` (`pub enum Opcode`). -/
inductive Opcode where
  | Dat | Mov | Add | Sub | Mul | Div | Mod
  | Jmp | Jmz | Jmn | Djn | Slt | Seq | Sne | Spl | Nop
deriving DecidableEq, Repr

/-- Modifiers of `src/parser/instruction.rs` (`pub enum Modifier`). -/
inductive Modifier where
  | A | B | AB | BA | F | X | I
deriving DecidableEq, Repr

/-- Addressing modes of `src/parser/instruction.rs` (`pub enum AddressMode`). -/
inductive AddressMode where
  | Immediate
  | Direct
  | AFieldIndirect
  | BFieldIndirect
  | AFieldPredecrementIndirect
  | BFieldPredecrementIndirect
  | AFieldPostincrementIndirect
  | BFieldPostincrementIndirect
deriving DecidableEq, Repr

/-- `CoreInstruction` of `src/core/mod.rs`: an in-core instruction whose
addresses are non-negative machine integers (`usize`, modelled as `Nat`). -/
structure CoreInstruction where
  opcode : Opcode
  modifier : Modifier
  mode_a : AddressMode
  addr_a : Nat
  mode_b : AddressMode
  addr_b : Nat
deriving DecidableEq, Repr

/-- The configuration fields of `CoreBuilder` in `src/core/corebuilder.rs`
that `Core::run_once` and `Core::evaluate_operand` read (plus
`cycles_before_tie`, which they notably do not read).  `warriors_len`
stands for `self.core.warriors.len()`. -/
structure CoreConfig where
  core_size : Nat
  cycles_before_tie : Nat
  instruction_limit : Nat
  maximum_number_of_tasks : Nat
  read_distance : Nat
  write_distance : Nat
  warriors_len : Nat
deriving DecidableEq, Repr

/-- The `Default` impl of `CoreBuilder` (src/core/corebuilder.rs, lines
25-41), restricted to the fields of `CoreConfig`; the default warrior list
is empty. -/
def defaultCoreConfig : CoreConfig :=
  { core_size := 8000
    cycles_before_tie := 80000
    instruction_limit := 100
    maximum_number_of_tasks := 8000
    read_distance := 8000
    write_distance := 8000
    warriors_len := 0 }

/-- `ExecutionOutcome` of `src/core/mod.rs`. -/
inductive ExecutionOutcome where
  | Continue
  | GameOver
deriving DecidableEq, Repr

/-- The mutable state of `Core` in `src/core/mod.rs`: the core memory, the
per-warrior task queues, the round-robin index, the executed-instruction
counter and the number of living warriors. -/
structure CoreState where
  instructions : List CoreInstruction
  task_queues : List (List Nat)
  current_queue : Nat
  total_instructions : Nat
  living_warriors_count : Nat
deriving DecidableEq, Repr

/-- `Core::fold` (src/core/mod.rs, lines 77-84): wrapped read/write pointer
folding.  (`core_size - limit` is `usize` subtraction; all uses below have
`limit ≤ core_size`, where `Nat` truncated subtraction agrees with it.) -/
def fold (ptr limit core_size : Nat) : Nat :=
  let result := ptr % limit
  if result > limit / 2 then result + (core_size - limit) else result

end Mars

namespace Mars

/-- `usize` subtraction `a - b`: panics (`none`) when `b > a` (debug-build
overflow check, which is how the repository's test-suite runs). -/
def checkedSub (a b : Nat) : Option Nat :=
  if b > a then none else some (a - b)

/-- `usize` division `a / b`: panics (`none`) when `b = 0`. -/
def checkedDiv (a b : Nat) : Option Nat :=
  if b = 0 then none else some (a / b)

/-- `usize` remainder `a % b`: panics (`none`) when `b = 0`. -/
def checkedMod (a b : Nat) : Option Nat :=
  if b = 0 then none else some (a % b)

/-- `Core::evaluate_operand` (src/core/mod.rs, lines 94-135).  Resolves one
operand to a pointer; the pre-decrement/post-increment modes mutate the
core, so the (possibly updated) instruction list is returned alongside the
pointer.  `none` models a panic: an out-of-bounds `self.instructions[next]`
or the `usize` underflow of `addr -= 1` on a zero field. -/
def evaluate_operand (cfg : CoreConfig) (mode : AddressMode) (addr task : Nat)
    (instructions : List CoreInstruction) :
    Option (Nat × List CoreInstruction) :=
  match mode with
  | .Immediate => some (0, instructions)
  | .Direct =>
    some (fold (addr + task) cfg.read_distance cfg.core_size, instructions)
  | .AFieldIndirect =>
    let next := fold (addr + task) cfg.read_distance cfg.core_size
    match instructions.get? next with
    | none => none
    | some ins =>
      some (fold (next + ins.addr_a) cfg.read_distance cfg.core_size, instructions)
  | .BFieldIndirect =>
    let next := fold (addr + task) cfg.read_distance cfg.core_size
    match instructions.get? next with
    | none => none
    | some ins =>
      some (fold (next + ins.addr_b) cfg.read_distance cfg.core_size, instructions)
  | .AFieldPredecrementIndirect =>
    let next := fold (addr + task) cfg.read_distance cfg.core_size
    match instructions.get? next with
    | none => none
    | some ins =>
      match checkedSub ins.addr_a 1 with
      | none => none
      | some a =>
        let ins' := { ins with addr_a := a }
        some (fold (next + ins'.addr_a) cfg.read_distance cfg.core_size,
              instructions.set next ins')
  | .BFieldPredecrementIndirect =>
    let next := fold (addr + task) cfg.read_distance cfg.core_size
    match instructions.get? next with
    | none => none
    | some ins =>
      match checkedSub ins.addr_b 1 with
      | none => none
      | some b =>
        let ins' := { ins with addr_b := b }
        some (fold (next + ins'.addr_b) cfg.read_distance cfg.core_size,
              instructions.set next ins')
  | .AFieldPostincrementIndirect =>
    let next := fold (addr + task) cfg.read_distance cfg.core_size
    match instructions.get? next with
    | none => none
    | some ins =>
      let addr' := ins.addr_a
      some (fold (next + addr') cfg.read_distance cfg.core_size,
            instructions.set next { ins with addr_a := ins.addr_a + 1 })
  | .BFieldPostincrementIndirect =>
    let next := fold (addr + task) cfg.read_distance cfg.core_size
    match instructions.get? next with
    | none => none
    | some ins =>
      let addr' := ins.addr_b
      some (fold (next + addr') cfg.read_distance cfg.core_size,
            instructions.set next { ins with addr_b := ins.addr_b + 1 })

/-- The `match instruction_register.opcode { ... }` block of
`Core::run_once` (src/core/mod.rs, lines 176-659).  Arguments mirror the
registers and pointers of the source; `queue` is the current warrior's
queue after its front task was popped, and `push_back` appends to it.
Returns the updated core memory and queue; `none` models a panic
(division/remainder by zero, `usize` underflow in SUB/DJN). -/
def dispatch_opcode (cfg : CoreConfig) (ir sr dr : CoreInstruction)
    (source_ptr destination_ptr task : Nat) (queue : List Nat)
    (instrs : List CoreInstruction) :
    Option (List CoreInstruction × List Nat) :=
  match ir.opcode with
  | .Dat => some (instrs, queue)
  | .Mov =>
    let cell :=
      match ir.modifier with
      | .I => sr
      | .A => { dr with addr_a := sr.addr_a }
      | .B => { dr with addr_b := sr.addr_b }
      | .AB => { dr with addr_b := sr.addr_a }
      | .BA => { dr with addr_a := sr.addr_b }
      | .F => { dr with addr_a := sr.addr_a, addr_b := sr.addr_b }
      | .X => { dr with addr_b := sr.addr_a, addr_a := sr.addr_b }
    some (instrs.set destination_ptr cell, queue ++ [task + 1])
  | .Add =>
    let cell :=
      match ir.modifier with
      | .A => { dr with addr_a := fold (dr.addr_a + sr.addr_a) cfg.write_distance cfg.core_size }
      | .B => { dr with addr_b := fold (dr.addr_b + sr.addr_b) cfg.write_distance cfg.core_size }
      | .AB => { dr with addr_b := fold (dr.addr_b + sr.addr_a) cfg.write_distance cfg.core_size }
      | .BA => { dr with addr_a := fold (dr.addr_a + sr.addr_b) cfg.write_distance cfg.core_size }
      | .F | .I =>
        let c1 := { dr with addr_a := fold (dr.addr_a + sr.addr_a) cfg.write_distance cfg.core_size }
        { c1 with addr_b := fold (c1.addr_b + sr.addr_b) cfg.write_distance cfg.core_size }
      | .X =>
        let c1 := { dr with addr_b := fold (dr.addr_b + sr.addr_a) cfg.write_distance cfg.core_size }
        { c1 with addr_a := fold (c1.addr_a + sr.addr_b) cfg.write_distance cfg.core_size }
    some (instrs.set destination_ptr cell, queue ++ [task + 1])
  | .Sub => do
    let cell ←
      match ir.modifier with
      | .A => do
        let v ← checkedSub dr.addr_a sr.addr_a
        pure { dr with addr_a := fold v cfg.write_distance cfg.core_size }
      | .B => do
        let v ← checkedSub dr.addr_b sr.addr_b
        pure { dr with addr_b := fold v cfg.write_distance cfg.core_size }
      | .AB => do
        let v ← checkedSub dr.addr_b sr.addr_a
        pure { dr with addr_b := fold v cfg.write_distance cfg.core_size }
      | .BA => do
        let v ← checkedSub dr.addr_a sr.addr_b
        pure { dr with addr_a := fold v cfg.write_distance cfg.core_size }
      | .F | .I => do
        let v1 ← checkedSub dr.addr_a sr.addr_a
        let c1 := { dr with addr_a := fold v1 cfg.write_distance cfg.core_size }
        let v2 ← checkedSub c1.addr_b sr.addr_b
        pure { c1 with addr_b := fold v2 cfg.write_distance cfg.core_size }
      | .X => do
        let v1 ← checkedSub dr.addr_b sr.addr_a
        let c1 := { dr with addr_b := fold v1 cfg.write_distance cfg.core_size }
        let v2 ← checkedSub c1.addr_a sr.addr_b
        pure { c1 with addr_a := fold v2 cfg.write_distance cfg.core_size }
    some (instrs.set destination_ptr cell, queue ++ [task + 1])
  | .Mul =>
    let cell :=
      match ir.modifier with
      | .A => { dr with addr_a := fold (dr.addr_a * sr.addr_a) cfg.write_distance cfg.core_size }
      | .B => { dr with addr_b := fold (dr.addr_b * sr.addr_b) cfg.write_distance cfg.core_size }
      | .AB => { dr with addr_b := fold (dr.addr_b * sr.addr_a) cfg.write_distance cfg.core_size }
      | .BA => { dr with addr_a := fold (dr.addr_a * sr.addr_b) cfg.write_distance cfg.core_size }
      | .F | .I =>
        let c1 := { dr with addr_a := fold (dr.addr_a * sr.addr_a) cfg.write_distance cfg.core_size }
        { c1 with addr_b := fold (c1.addr_b * sr.addr_b) cfg.write_distance cfg.core_size }
      | .X =>
        let c1 := { dr with addr_b := fold (dr.addr_b * sr.addr_a) cfg.write_distance cfg.core_size }
        { c1 with addr_a := fold (c1.addr_a * sr.addr_b) cfg.write_distance cfg.core_size }
    some (instrs.set destination_ptr cell, queue ++ [task + 1])
  | .Div => do
    let cell ←
      match ir.modifier with
      | .A => do
        let v ← checkedDiv dr.addr_a sr.addr_a
        pure { dr with addr_a := fold v cfg.write_distance cfg.core_size }
      | .B => do
        let v ← checkedDiv dr.addr_b sr.addr_b
        pure { dr with addr_b := fold v cfg.write_distance cfg.core_size }
      | .AB => do
        let v ← checkedDiv dr.addr_b sr.addr_a
        pure { dr with addr_b := fold v cfg.write_distance cfg.core_size }
      | .BA => do
        let v ← checkedDiv dr.addr_a sr.addr_b
        pure { dr with addr_a := fold v cfg.write_distance cfg.core_size }
      | .F | .I => do
        let v1 ← checkedDiv dr.addr_a sr.addr_a
        let c1 := { dr with addr_a := fold v1 cfg.write_distance cfg.core_size }
        let v2 ← checkedDiv c1.addr_b sr.addr_b
        pure { c1 with addr_b := fold v2 cfg.write_distance cfg.core_size }
      | .X => do
        let v1 ← checkedDiv dr.addr_b sr.addr_a
        let c1 := { dr with addr_b := fold v1 cfg.write_distance cfg.core_size }
        let v2 ← checkedDiv c1.addr_a sr.addr_b
        pure { c1 with addr_a := fold v2 cfg.write_distance cfg.core_size }
    some (instrs.set destination_ptr cell, queue ++ [task + 1])
  | .Mod => do
    let cell ←
      match ir.modifier with
      | .A => do
        let v ← checkedMod dr.addr_a sr.addr_a
        pure { dr with addr_a := fold v cfg.write_distance cfg.core_size }
      | .B => do
        let v ← checkedMod dr.addr_b sr.addr_b
        pure { dr with addr_b := fold v cfg.write_distance cfg.core_size }
      | .AB => do
        let v ← checkedMod dr.addr_b sr.addr_a
        pure { dr with addr_b := fold v cfg.write_distance cfg.core_size }
      | .BA => do
        let v ← checkedMod dr.addr_a sr.addr_b
        pure { dr with addr_a := fold v cfg.write_distance cfg.core_size }
      | .F | .I => do
        let v1 ← checkedMod dr.addr_a sr.addr_a
        let c1 := { dr with addr_a := fold v1 cfg.write_distance cfg.core_size }
        let v2 ← checkedMod c1.addr_b sr.addr_b
        pure { c1 with addr_b := fold v2 cfg.write_distance cfg.core_size }
      | .X => do
        let v1 ← checkedMod dr.addr_b sr.addr_a
        let c1 := { dr with addr_b := fold v1 cfg.write_distance cfg.core_size }
        let v2 ← checkedMod c1.addr_a sr.addr_b
        pure { c1 with addr_a := fold v2 cfg.write_distance cfg.core_size }
    some (instrs.set destination_ptr cell, queue ++ [task + 1])
  | .Jmp => some (instrs, queue ++ [source_ptr])
  | .Jmz =>
    let target :=
      match ir.modifier with
      | .A | .BA => if dr.addr_a = 0 then source_ptr else task + 1
      | .B | .AB => if dr.addr_b = 0 then source_ptr else task + 1
      | _ => if dr.addr_a = 0 ∧ dr.addr_b = 0 then source_ptr else task + 1
    some (instrs, queue ++ [target])
  | .Jmn =>
    let target :=
      match ir.modifier with
      | .A | .BA => if dr.addr_a ≠ 0 then source_ptr else task + 1
      | .B | .AB => if dr.addr_b ≠ 0 then source_ptr else task + 1
      | _ => if dr.addr_a ≠ 0 ∧ dr.addr_b ≠ 0 then source_ptr else task + 1
    some (instrs, queue ++ [target])
  | .Djn =>
    match ir.modifier with
    | .A | .BA => do
      let v ← checkedSub dr.addr_a 1
      let cell := { dr with addr_a := fold v cfg.write_distance cfg.core_size }
      some (instrs.set destination_ptr cell,
            queue ++ [if cell.addr_a ≠ 0 then source_ptr else task + 1])
    | .B | .AB => do
      let v ← checkedSub dr.addr_b 1
      let cell := { dr with addr_b := fold v cfg.write_distance cfg.core_size }
      some (instrs.set destination_ptr cell,
            queue ++ [if cell.addr_b ≠ 0 then source_ptr else task + 1])
    | _ => do
      let v1 ← checkedSub dr.addr_a 1
      let c1 := { dr with addr_a := fold v1 cfg.write_distance cfg.core_size }
      let v2 ← checkedSub c1.addr_b 1
      let cell := { c1 with addr_b := fold v2 cfg.write_distance cfg.core_size }
      -- the source's condition tests `addr_a != 0` twice (it never looks at
      -- the decremented B-field); translated literally
      some (instrs.set destination_ptr cell,
            queue ++ [if cell.addr_a ≠ 0 ∧ cell.addr_a ≠ 0 then source_ptr else task + 1])
  | .Seq =>
    let skip : Bool :=
      match ir.modifier with
      | .A => sr.addr_a == dr.addr_a
      | .B => sr.addr_b == dr.addr_b
      | .AB => sr.addr_a == dr.addr_b
      | .BA => sr.addr_b == dr.addr_a
      | .F => sr.addr_a == dr.addr_a && sr.addr_b == dr.addr_b
      | .X => sr.addr_a == dr.addr_b && sr.addr_b == dr.addr_a
      | .I =>
        -- the last conjunct compares `source_register.mode_b` with itself
        -- (source line 604); translated literally
        sr.addr_a == dr.addr_a && sr.addr_b == dr.addr_b &&
          decide (sr.mode_a = dr.mode_a) && decide (sr.mode_b = sr.mode_b)
    some (instrs, queue ++ [if skip then task + 2 else task + 1])
  | .Slt =>
    let skip : Bool :=
      match ir.modifier with
      | .A => decide (sr.addr_a < dr.addr_a)
      | .B => decide (sr.addr_b < dr.addr_b)
      | .AB => decide (sr.addr_a < dr.addr_b)
      | .BA => decide (sr.addr_b < dr.addr_a)
      | .F | .I => decide (sr.addr_a < dr.addr_a) && decide (sr.addr_b < dr.addr_b)
      | .X => decide (sr.addr_a < dr.addr_b) && decide (sr.addr_b < dr.addr_a)
    some (instrs, queue ++ [if skip then task + 2 else task + 1])
  | .Sne =>
    let skip : Bool :=
      match ir.modifier with
      | .A => sr.addr_a != dr.addr_a
      | .B => sr.addr_b != dr.addr_b
      | .AB => sr.addr_a != dr.addr_b
      | .BA => sr.addr_b != dr.addr_a
      | .F => sr.addr_a != dr.addr_a || sr.addr_b != dr.addr_b
      | .X => sr.addr_a != dr.addr_b || sr.addr_b != dr.addr_a
      | .I =>
        -- the last disjunct compares `source_register.mode_b` with itself
        -- (source line 647); translated literally
        sr.addr_a != dr.addr_a || sr.addr_b != dr.addr_b ||
          decide (sr.mode_a ≠ dr.mode_a) || decide (sr.mode_b ≠ sr.mode_b)
    some (instrs, queue ++ [if skip then task + 2 else task + 1])
  | .Spl =>
    -- push `task + 1`, then push `source_register.addr_a` (source lines
    -- 654-657): no task-cap test, and the A-FIELD of the source register,
    -- not the resolved source pointer
    some (instrs, queue ++ [task + 1] ++ [sr.addr_a])
  | .Nop => some (instrs, queue ++ [task + 1])

/-- `Core::run_once` (src/core/mod.rs, lines 137-673): one scheduling step.
`none` models a panic. -/
def run_once (cfg : CoreConfig) (s : CoreState) :
    Option (ExecutionOutcome × CoreState) :=
  match s.task_queues.get? s.current_queue with
  | none => none
  | some queue =>
    match queue with
    | [] =>
      -- the warrior has no tasks: `living_warriors_count -= 1` and return
      if s.living_warriors_count = 0 then none
      else
        let living := s.living_warriors_count - 1
        some (if living = 0 then .GameOver else .Continue,
              { s with living_warriors_count := living })
    | task :: rest =>
      match s.instructions.get? task with
      | none => none
      | some instruction_register =>
        match evaluate_operand cfg instruction_register.mode_a
            instruction_register.addr_a task s.instructions with
        | none => none
        | some (source_ptr, instrs1) =>
          match instrs1.get? source_ptr with
          | none => none
          | some source_register =>
            match evaluate_operand cfg instruction_register.mode_b
                instruction_register.addr_b task instrs1 with
            | none => none
            | some (destination_ptr, instrs2) =>
              match instrs2.get? destination_ptr with
              | none => none
              | some destination_register =>
                match dispatch_opcode cfg instruction_register source_register
                    destination_register source_ptr destination_ptr task rest
                    instrs2 with
                | none => none
                | some (instrs3, queue') =>
                  -- `self.core.warriors.len() - 1` underflows when there are
                  -- no warriors
                  if cfg.warriors_len = 0 then none
                  else
                    let current_queue' :=
                      if s.current_queue = cfg.warriors_len - 1 then 0
                      else s.current_queue + 1
                    let total' := s.total_instructions + 1
                    some (if total' > cfg.instruction_limit then .GameOver
                          else .Continue,
                          { instructions := instrs3,
                            task_queues := s.task_queues.set s.current_queue queue',
                            current_queue := current_queue',
                            total_instructions := total',
                            living_warriors_count := s.living_warriors_count })

/-- Iterate `run_once`, keeping the state (as `Core::run` does while the
outcome is `Continue`; every scenario below iterates only through
`Continue` steps). -/
def run_n (cfg : CoreConfig) : Nat → CoreState → Option CoreState
  | 0, s => some s
  | n + 1, s =>
    match run_once cfg s with
    | none => none
    | some (_, s') => run_n cfg n s'

end Mars

namespace Mars

/-- C8: for every pointer `ptr` and every `limit` dividing the (positive)
core size `N`, `Core::fold` lands in `[0, N)` and equals
`(ptr % limit) + (N - limit)` when `ptr % limit > limit / 2` and
`ptr % limit` otherwise; with `limit = N` it degenerates to `x % N`. -/
theorem C8_fold_contract (ptr limit N : Nat) (hN : 0 < N) (hdvd : limit ∣ N) :
    fold ptr limit N < N ∧
    fold ptr limit N =
      (if limit / 2 < ptr % limit then ptr % limit + (N - limit)
       else ptr % limit) ∧
    (∀ x, fold x N N = x % N) := by
  have hlim : 0 < limit := Nat.pos_of_dvd_of_pos hdvd hN
  have hle : limit ≤ N := Nat.le_of_dvd hN hdvd
  have hmod : ptr % limit < limit := Nat.mod_lt _ hlim
  refine ⟨?_, rfl, ?_⟩
  · show (if limit / 2 < ptr % limit then ptr % limit + (N - limit)
        else ptr % limit) < N
    split
    · omega
    · have h2 : limit / 2 < limit := Nat.div_lt_self hlim one_lt_two
      omega
  · intro x
    show (if N / 2 < x % N then x % N + (N - N) else x % N) = x % N
    split <;> simp

/-- Witness for C8: the contract applied at the default core size 8000 with
`limit = N = 8000`, plus the four concrete folding identities of the spec. -/
theorem C8_fold_contract_witness :
    0 < 8000 ∧ (8000 : Nat) ∣ 8000 ∧
    (fold 44 8000 8000 < 8000 ∧ ∀ x, fold x 8000 8000 = x % 8000) ∧
    fold 44 8000 8000 = 44 ∧ fold 8060 8000 8000 = 60 ∧
    fold 8000 8000 8000 = 0 ∧ fold 7999 8000 8000 = 7999 := by
  refine ⟨by norm_num, dvd_refl _,
    ⟨(C8_fold_contract 44 8000 8000 (by norm_num) (dvd_refl _)).1,
     (C8_fold_contract 44 8000 8000 (by norm_num) (dvd_refl _)).2.2⟩,
    by decide, by decide, by decide, by decide⟩

/-- C10: when `run_once` finds the current warrior's task queue empty it
only decrements the living-warriors count, reporting `GameOver` exactly
when the count reaches zero; the core instructions, every task queue, the
current-queue index and the instruction counter are unchanged, so the empty
queue stays in the scheduling ring and the scheduler does not advance past
it. -/
theorem C10_empty_queue_frame (cfg : CoreConfig) (s : CoreState)
    (hq : s.task_queues.get? s.current_queue = some [])
    (hl : 0 < s.living_warriors_count) :
    run_once cfg s =
      some ((if s.living_warriors_count = 1 then ExecutionOutcome.GameOver
             else ExecutionOutcome.Continue),
        { s with living_warriors_count := s.living_warriors_count - 1 }) := by
  have hne : s.living_warriors_count ≠ 0 := Nat.pos_iff_ne_zero.mp hl
  simp only [run_once, hq]
  rw [if_neg hne]
  by_cases h1 : s.living_warriors_count = 1
  · simp [h1]
  · have h2 : s.living_warriors_count - 1 ≠ 0 := by omega
    simp [h1, h2]

/-- Witness for C10: two warriors, warrior 0's queue empty while warrior 1
still holds task 5.  Two successive `run_once` calls each decrement the
count (the scheduler never advances), and the second ends the match even
though warrior 1 still has a runnable task. -/
theorem C10_empty_queue_frame_witness :
    run_once
        { core_size := 8000, cycles_before_tie := 80000,
          instruction_limit := 100, maximum_number_of_tasks := 8000,
          read_distance := 8000, write_distance := 8000, warriors_len := 2 }
        { instructions := [], task_queues := [[], [5]], current_queue := 0,
          total_instructions := 0, living_warriors_count := 2 } =
      some (ExecutionOutcome.Continue,
        { instructions := [], task_queues := [[], [5]], current_queue := 0,
          total_instructions := 0, living_warriors_count := 1 }) ∧
    run_once
        { core_size := 8000, cycles_before_tie := 80000,
          instruction_limit := 100, maximum_number_of_tasks := 8000,
          read_distance := 8000, write_distance := 8000, warriors_len := 2 }
        { instructions := [], task_queues := [[], [5]], current_queue := 0,
          total_instructions := 0, living_warriors_count := 1 } =
      some (ExecutionOutcome.GameOver,
        { instructions := [], task_queues := [[], [5]], current_queue := 0,
          total_instructions := 0, living_warriors_count := 0 }) ∧
    ([[], [5]] : List (List Nat)).get? 1 = some [5] := by
  refine ⟨?_, ?_, rfl⟩
  · have h := C10_empty_queue_frame
      { core_size := 8000, cycles_before_tie := 80000,
        instruction_limit := 100, maximum_number_of_tasks := 8000,
        read_distance := 8000, write_distance := 8000, warriors_len := 2 }
      { instructions := [], task_queues := [[], [5]], current_queue := 0,
        total_instructions := 0, living_warriors_count := 2 }
      rfl (by norm_num)
    simpa using h
  · have h := C10_empty_queue_frame
      { core_size := 8000, cycles_before_tie := 80000,
        instruction_limit := 100, maximum_number_of_tasks := 8000,
        read_distance := 8000, write_distance := 8000, warriors_len := 2 }
      { instructions := [], task_queues := [[], [5]], current_queue := 0,
        total_instructions := 0, living_warriors_count := 1 }
      rfl (by norm_num)
    simpa using h

end Mars

namespace Mars

/-- `Instruction::default()` of src/warrior.rs (`DAT.F $0, $0`), the default
initial core instruction. -/
def datDefault : CoreInstruction :=
  { opcode := .Dat, modifier := .F, mode_a := .Direct, addr_a := 0,
    mode_b := .Direct, addr_b := 0 }

/-- The configuration used by the engine tests in src/core/test.rs
(`build_and_run_imp`, `build_and_run_dwarf`, `build_and_run_stone`): a
core of 10 cells, read/write distance 10, one warrior, every other field at
its `CoreBuilder::default()` value. -/
def testCfg10 : CoreConfig :=
  { core_size := 10, cycles_before_tie := 80000, instruction_limit := 100,
    maximum_number_of_tasks := 8000, read_distance := 10,
    write_distance := 10, warriors_len := 1 }

/-- The loaded core of the `build_and_run_imp` test: `MOV.I $0, $1` at cell
0, `DAT.F $0, $0` elsewhere, the single warrior's queue holding task 0. -/
def impState : CoreState :=
  { instructions :=
      { opcode := .Mov, modifier := .I, mode_a := .Direct, addr_a := 0,
        mode_b := .Direct, addr_b := 1 } :: List.replicate 9 datDefault,
    task_queues := [[0]], current_queue := 0, total_instructions := 0,
    living_warriors_count := 1 }

/-- The loaded core of the `build_and_run_dwarf` test:
`DAT.F #0, #0 / ADD.AB #4, $9 / MOV.AB #0, @8 / JMP.A $8, $0`, queue
holding task 1 (the instruction after the bomb). -/
def dwarfState : CoreState :=
  { instructions :=
      [{ opcode := .Dat, modifier := .F, mode_a := .Immediate, addr_a := 0,
         mode_b := .Immediate, addr_b := 0 },
       { opcode := .Add, modifier := .AB, mode_a := .Immediate, addr_a := 4,
         mode_b := .Direct, addr_b := 9 },
       { opcode := .Mov, modifier := .AB, mode_a := .Immediate, addr_a := 0,
         mode_b := .BFieldIndirect, addr_b := 8 },
       { opcode := .Jmp, modifier := .A, mode_a := .Direct, addr_a := 8,
         mode_b := .Direct, addr_b := 0 }] ++ List.replicate 6 datDefault,
    task_queues := [[1]], current_queue := 0, total_instructions := 0,
    living_warriors_count := 1 }

/-- The loaded core of the `build_and_run_stone` test:
`MOV.I <2, $3 / ADD.F $3, $9 / JMP.B $8, $0 / DAT.F #0, $0 / DAT.F #6, #4`,
queue holding task 0. -/
def stoneState : CoreState :=
  { instructions :=
      [{ opcode := .Mov, modifier := .I,
         mode_a := .BFieldPredecrementIndirect, addr_a := 2,
         mode_b := .Direct, addr_b := 3 },
       { opcode := .Add, modifier := .F, mode_a := .Direct, addr_a := 3,
         mode_b := .Direct, addr_b := 9 },
       { opcode := .Jmp, modifier := .B, mode_a := .Direct, addr_a := 8,
         mode_b := .Direct, addr_b := 0 },
       { opcode := .Dat, modifier := .F, mode_a := .Immediate, addr_a := 0,
         mode_b := .Direct, addr_b := 0 },
       { opcode := .Dat, modifier := .F, mode_a := .Immediate, addr_a := 6,
         mode_b := .Immediate, addr_b := 4 }] ++ List.replicate 5 datDefault,
    task_queues := [[0]], current_queue := 0, total_instructions := 0,
    living_warriors_count := 1 }

/-- A one-warrior core whose task sits on `JMP.B $0, $0` (a tight
self-loop), with 100 instructions already executed. -/
def jmpLoopState : CoreState :=
  { instructions :=
      { opcode := .Jmp, modifier := .B, mode_a := .Direct, addr_a := 0,
        mode_b := .Direct, addr_b := 0 } :: List.replicate 9 datDefault,
    task_queues := [[0]], current_queue := 0, total_instructions := 100,
    living_warriors_count := 1 }

/-- `testCfg10` with the per-warrior task cap lowered to one task. -/
def splCfg : CoreConfig :=
  { testCfg10 with maximum_number_of_tasks := 1 }

/-- A one-warrior core about to execute `SPL.B $3, $0`; cell 3 has A-field
7, so the resolved source pointer (3) and the source register's A-field (7)
differ. -/
def splState : CoreState :=
  { instructions :=
      [{ opcode := .Spl, modifier := .B, mode_a := .Direct, addr_a := 3,
         mode_b := .Direct, addr_b := 0 },
       datDefault, datDefault,
       { opcode := .Dat, modifier := .F, mode_a := .Direct, addr_a := 7,
         mode_b := .Direct, addr_b := 0 }] ++ List.replicate 6 datDefault,
    task_queues := [[0]], current_queue := 0, total_instructions := 0,
    living_warriors_count := 1 }

/-- A one-warrior core about to execute `DIV.AB $1, $2` where cell 1's
A-field (the modifier-selected source field) is zero. -/
def divZeroState : CoreState :=
  { instructions :=
      [{ opcode := .Div, modifier := .AB, mode_a := .Direct, addr_a := 1,
         mode_b := .Direct, addr_b := 2 },
       { opcode := .Dat, modifier := .F, mode_a := .Immediate, addr_a := 0,
         mode_b := .Immediate, addr_b := 0 },
       { opcode := .Dat, modifier := .F, mode_a := .Immediate, addr_a := 5,
         mode_b := .Immediate, addr_b := 5 }] ++ List.replicate 7 datDefault,
    task_queues := [[0]], current_queue := 0, total_instructions := 0,
    living_warriors_count := 1 }

/-- Same core as `divZeroState` but executing `MOD.B $1, $2`, with cell 1's
B-field (the selected source field) zero. -/
def modZeroState : CoreState :=
  { instructions :=
      [{ opcode := .Mod, modifier := .B, mode_a := .Direct, addr_a := 1,
         mode_b := .Direct, addr_b := 2 },
       { opcode := .Dat, modifier := .F, mode_a := .Immediate, addr_a := 0,
         mode_b := .Immediate, addr_b := 0 },
       { opcode := .Dat, modifier := .F, mode_a := .Immediate, addr_a := 5,
         mode_b := .Immediate, addr_b := 5 }] ++ List.replicate 7 datDefault,
    task_queues := [[0]], current_queue := 0, total_instructions := 0,
    living_warriors_count := 1 }

end Mars

namespace Mars

/-- C1: refuted on the code — `run_once` never reduces enqueued PCs modulo
the core size.  In the `build_and_run_imp` scenario (core size 10), after 9
steps the queue holds PC 9; the 10th step enqueues `task + 1 = 10`, which is
not below `core_size`, and the following step panics on the out-of-range
`self.instructions[task]` access. -/
theorem C1_enqueued_pc_out_of_range :
    ((run_n testCfg10 9 impState).map fun s => s.task_queues) = some [[9]] ∧
    ((run_n testCfg10 10 impState).map fun s => s.task_queues) = some [[10]] ∧
    ¬ (10 < testCfg10.core_size) ∧
    ((run_n testCfg10 10 impState).bind fun s => run_once testCfg10 s) =
      none :=
  ⟨by decide, by decide, by decide, by decide⟩

/-- C2: refuted on the code — `run_once` compares the incremented counter
against `instruction_limit` (the per-warrior length cap, default 100), not
`cycles_before_tie` (default 80000, never read), and stops when the counter
exceeds (not reaches) that limit: a self-looping `JMP` dies as `GameOver`
on the 101st executed instruction, far before 80000 cycles. -/
theorem C2_match_ends_at_instruction_limit :
    defaultCoreConfig.cycles_before_tie = 80000 ∧
    defaultCoreConfig.instruction_limit = 100 ∧
    testCfg10.cycles_before_tie = 80000 ∧
    testCfg10.instruction_limit = 100 ∧
    ((run_once testCfg10 jmpLoopState).map fun r =>
        (r.1, r.2.total_instructions)) =
      some (ExecutionOutcome.GameOver, 101) ∧
    101 < testCfg10.cycles_before_tie :=
  ⟨by decide, by decide, by decide, by decide, by decide, by decide⟩

/-- C3: refuted on the code — `evaluate_operand` resolves an Immediate
operand to the absolute pointer 0, not to the task's own PC, so the source
register is `instructions[0]` rather than the instruction register.  On the
`build_and_run_dwarf` first step (task 1 executing `ADD.AB #4, $9`), the
bomb cell keeps B-field 0, while the repository's own test expects
`DAT.F #0, #4`; the executing task's PC is 1, not 0. -/
theorem C3_immediate_pointer_is_zero_not_pc :
    (∀ (cfg : CoreConfig) (addr task : Nat)
        (instrs : List CoreInstruction),
        evaluate_operand cfg AddressMode.Immediate addr task instrs =
          some (0, instrs)) ∧
    ((run_once testCfg10 dwarfState).map fun r =>
        (r.1, (r.2.instructions.get? 0).map fun i => i.addr_b)) =
      some (ExecutionOutcome.Continue, some 0) ∧
    (0 : Nat) ≠ 4 ∧ (0 : Nat) ≠ 1 :=
  ⟨fun _ _ _ _ => rfl, by decide, by decide, by decide⟩

/-- C4: refuted on the code — `SPL` enqueues its second task with no test
of the task cap, and it enqueues `source_register.addr_a`, not the resolved
source pointer.  With the cap set to 1, `SPL.B $3, $0` leaves the queue
at length 2, and the value pushed is cell 3's A-field (7), not the resolved
pointer 3. -/
theorem C4_spl_unconditional_and_pushes_addr_a :
    splCfg.maximum_number_of_tasks = 1 ∧
    ((run_once splCfg splState).map fun r => r.2.task_queues) =
      some [[1, 7]] ∧
    ((evaluate_operand splCfg AddressMode.Direct 3 0
        splState.instructions).map Prod.fst) = some 3 ∧
    (7 : Nat) ≠ 3 ∧
    splCfg.maximum_number_of_tasks < ([1, 7] : List Nat).length :=
  ⟨by decide, by decide, by decide, by decide, by decide⟩

/-- C5: refuted on the code — a DIV or MOD whose modifier-selected source
field is zero performs a bare `usize` division/remainder, which panics
(aborting the whole match) instead of silently killing the task and
continuing. -/
theorem C5_div_mod_by_zero_panics :
    ((divZeroState.instructions.get? 1).map fun i => i.addr_a) = some 0 ∧
    run_once testCfg10 divZeroState = none ∧
    ((modZeroState.instructions.get? 1).map fun i => i.addr_b) = some 0 ∧
    run_once testCfg10 modZeroState = none :=
  ⟨by decide, by decide, by decide, by decide⟩

/-- C6: refuted on the code — pre-decrementing a zero field performs a bare
`usize` subtraction, which underflows (panics) instead of wrapping to
`N - 1`.  On the `build_and_run_stone` first step, `MOV.I <2, $3`
pre-decrements cell 2's B-field, which is 0; the repository's own test
expects that cell to become `JMP.B $8, $9` (wrap to 9). -/
theorem C6_predecrement_of_zero_underflows :
    ((stoneState.instructions.get? 2).map fun i => i.addr_b) = some 0 ∧
    run_once testCfg10 stoneState = none ∧
    checkedSub 0 1 = none :=
  ⟨by decide, by decide, by decide⟩

end Mars

namespace Mars

/-- `ExprValue` of src/parser/numeric_expr.rs; numbers are `i64`, modelled
as `Int` (the properties below involve no values near `2 ^ 63`). -/
inductive ExprValue where
  | Number (n : Int)
  | Label (l : String)
deriving DecidableEq, Repr

/-- `NumericExpr` of src/parser/numeric_expr.rs. -/
inductive NumericExpr where
  | Value (v : ExprValue)
  | Add (l r : NumericExpr)
  | Subtract (l r : NumericExpr)
  | Multiply (l r : NumericExpr)
  | Divide (l r : NumericExpr)
  | Modulo (l r : NumericExpr)
  | Paren (e : NumericExpr)
deriving DecidableEq, Repr

/-- The `EvaluateError` cases raised by `NumericExpr::evaluate`
(src/error.rs), plus `ModPanic` standing for the Rust panic of `%` with a
zero right-hand side: the source guards `/` with `checked_div` but applies
`%` bare. -/
inductive EvaluateError where
  | UndefinedLabel (l : String)
  | DivideByZero
  | ModPanic
deriving DecidableEq, Repr

/-- `NumericExpr::evaluate` (src/parser/numeric_expr.rs, lines 82-124).
The source sets a local `is_label` flag only in the `Value(Label)` arm of
the current invocation and finally returns `res - current_line` iff the
flag is set, so exactly the label arm returns its value offset by
`- current_line`, and every other arm combines its (already offset)
sub-results unchanged.  The label map is an association list standing for
the `HashMap`; `i64` `/` and `%` are Rust's truncating `tdiv`/`tmod`. -/
def NumericExpr.evaluate : NumericExpr → List (String × Int) → Nat →
    Except EvaluateError Int
  | .Value (.Number n), _, _ => .ok n
  | .Value (.Label l), labels, current_line =>
    match labels.lookup l with
    | none => .error (.UndefinedLabel l)
    | some v => .ok (v - (current_line : Int))
  | .Paren e, labels, current_line => e.evaluate labels current_line
  | .Add l r, labels, current_line => do
    let a ← l.evaluate labels current_line
    let b ← r.evaluate labels current_line
    pure (a + b)
  | .Subtract l r, labels, current_line => do
    let a ← l.evaluate labels current_line
    let b ← r.evaluate labels current_line
    pure (a - b)
  | .Multiply l r, labels, current_line => do
    let a ← l.evaluate labels current_line
    let b ← r.evaluate labels current_line
    pure (a * b)
  | .Divide l r, labels, current_line => do
    let a ← l.evaluate labels current_line
    let b ← r.evaluate labels current_line
    if b = 0 then .error .DivideByZero else pure (Int.tdiv a b)
  | .Modulo l r, labels, current_line => do
    let a ← l.evaluate labels current_line
    let b ← r.evaluate labels current_line
    if b = 0 then .error .ModPanic else pure (Int.tmod a b)

/-- Whether an expression contains at least one label reference (the
condition C7's claimed contract branches on). -/
def NumericExpr.containsLabel : NumericExpr → Bool
  | .Value (.Number _) => false
  | .Value (.Label _) => true
  | .Paren e => e.containsLabel
  | .Add l r | .Subtract l r | .Multiply l r | .Divide l r | .Modulo l r =>
    l.containsLabel || r.containsLabel

/-- Absolute (offset-free) evaluation against a label environment,
following the spec's words ("computing the absolute value"); the spec-side
comparator for C7. -/
def NumericExpr.specAbsEval : NumericExpr → (String → Option Int) →
    Except EvaluateError Int
  | .Value (.Number n), _ => .ok n
  | .Value (.Label l), env =>
    match env l with
    | none => .error (.UndefinedLabel l)
    | some v => .ok v
  | .Paren e, env => e.specAbsEval env
  | .Add l r, env => do
    let a ← l.specAbsEval env
    let b ← r.specAbsEval env
    pure (a + b)
  | .Subtract l r, env => do
    let a ← l.specAbsEval env
    let b ← r.specAbsEval env
    pure (a - b)
  | .Multiply l r, env => do
    let a ← l.specAbsEval env
    let b ← r.specAbsEval env
    pure (a * b)
  | .Divide l r, env => do
    let a ← l.specAbsEval env
    let b ← r.specAbsEval env
    if b = 0 then .error .DivideByZero else pure (Int.tdiv a b)
  | .Modulo l r, env => do
    let a ← l.specAbsEval env
    let b ← r.specAbsEval env
    if b = 0 then .error .ModPanic else pure (Int.tmod a b)

/-- The contract C7 claims for `evaluate`: compute the absolute value, then
subtract `current_line` exactly once iff the expression contains at least
one label reference. -/
def claimedEvaluate (e : NumericExpr) (labels : List (String × Int))
    (current_line : Nat) : Except EvaluateError Int :=
  if e.containsLabel then
    (e.specAbsEval fun l => labels.lookup l).map (· - (current_line : Int))
  else
    e.specAbsEval fun l => labels.lookup l

end Mars

namespace Mars

/-- C7 counterexample: `a + a` with `a ↦ 5` at `current_line = 1`
evaluates to `(5-1) + (5-1) = 8`, while the claimed once-per-field offset
would give `(5+5) - 1 = 9`: the claim as stated is false. -/
theorem C7_counterexample :
    NumericExpr.evaluate
        (.Add (.Value (.Label "a")) (.Value (.Label "a"))) [("a", 5)] 1 =
      .ok 8 ∧
    claimedEvaluate
        (.Add (.Value (.Label "a")) (.Value (.Label "a"))) [("a", 5)] 1 =
      .ok 9 ∧
    NumericExpr.evaluate
        (.Add (.Value (.Label "a")) (.Value (.Label "a"))) [("a", 5)] 1 ≠
      claimedEvaluate
        (.Add (.Value (.Label "a")) (.Value (.Label "a"))) [("a", 5)] 1 :=
  ⟨rfl, rfl, fun h => absurd (Except.ok.inj h) (by norm_num)⟩

/-- C7 amended: `evaluate` applies the `- current_line` offset once per
label REFERENCE, at the leaf — it equals absolute evaluation in the
environment mapping each label `l` to `labels[l] - current_line` — so
label-free expressions are returned as-is, but an expression with several
label references is offset once for each of them. -/
theorem C7_offset_once_per_label_reference (e : NumericExpr)
    (labels : List (String × Int)) (current_line : Nat) :
    e.evaluate labels current_line =
      e.specAbsEval fun l =>
        (labels.lookup l).map (· - (current_line : Int)) := by
  induction e with
  | Value v =>
    cases v with
    | Number n => rfl
    | Label l =>
      simp only [NumericExpr.evaluate, NumericExpr.specAbsEval]
      cases labels.lookup l <;> rfl
  | Add l r ihl ihr =>
    simp only [NumericExpr.evaluate, NumericExpr.specAbsEval, ihl, ihr]
  | Subtract l r ihl ihr =>
    simp only [NumericExpr.evaluate, NumericExpr.specAbsEval, ihl, ihr]
  | Multiply l r ihl ihr =>
    simp only [NumericExpr.evaluate, NumericExpr.specAbsEval, ihl, ihr]
  | Divide l r ihl ihr =>
    simp only [NumericExpr.evaluate, NumericExpr.specAbsEval, ihl, ihr]
  | Modulo l r ihl ihr =>
    simp only [NumericExpr.evaluate, NumericExpr.specAbsEval, ihl, ihr]
  | Paren e ih =>
    simp only [NumericExpr.evaluate, NumericExpr.specAbsEval, ih]

end Mars

namespace Mars

/-- A nom parser over `&str`, modelled as a function from the remaining
input to `Option (rest, value)`; `none` is a nom `Err`. -/
def P (α : Type) : Type := List Char → Option (List Char × α)

/-- nom `space0`/`space1` character class (space and horizontal tab). -/
def isSpaceTab (c : Char) : Bool := c = ' ' || c = '\t'

/-- nom `multispace1` character class. -/
def isMultispaceChar (c : Char) : Bool :=
  c = ' ' || c = '\t' || c = '\n' || c = '\r'

def isAsciiDigitChar (c : Char) : Bool := '0' ≤ c && c ≤ '9'

def isAsciiAlphaChar (c : Char) : Bool :=
  ('a' ≤ c && c ≤ 'z') || ('A' ≤ c && c ≤ 'Z')

def isAsciiAlphanumericChar (c : Char) : Bool :=
  isAsciiAlphaChar c || isAsciiDigitChar c

/-- nom `space0`. -/
def space0 : P (List Char) := fun i =>
  let s := i.span isSpaceTab
  some (s.2, s.1)

/-- nom `space1`. -/
def space1 : P (List Char) := fun i =>
  let s := i.span isSpaceTab
  if s.1.isEmpty then none else some (s.2, s.1)

/-- nom `multispace1`. -/
def multispace1 : P (List Char) := fun i =>
  let s := i.span isMultispaceChar
  if s.1.isEmpty then none else some (s.2, s.1)

/-- nom `digit1`. -/
def digit1 : P (List Char) := fun i =>
  let s := i.span isAsciiDigitChar
  if s.1.isEmpty then none else some (s.2, s.1)

/-- nom `alpha1`. -/
def alpha1 : P (List Char) := fun i =>
  let s := i.span isAsciiAlphaChar
  if s.1.isEmpty then none else some (s.2, s.1)

/-- nom `alphanumeric0`. -/
def alphanumeric0 : P (List Char) := fun i =>
  let s := i.span isAsciiAlphanumericChar
  some (s.2, s.1)

/-- nom `not_line_ending` (the texts modelled here contain no lone `\r`). -/
def notLineEnding : P (List Char) := fun i =>
  let s := i.span fun c => !(c = '\n' || c = '\r')
  some (s.2, s.1)

/-- nom `take_till`. -/
def takeTill (p : Char → Bool) : P (List Char) := fun i =>
  let s := i.span fun c => !p c
  some (s.2, s.1)

/-- nom `char`. -/
def charP (c : Char) : P Char := fun i =>
  match i with
  | [] => none
  | d :: rest => if d = c then some (rest, c) else none

/-- nom `one_of`. -/
def oneOf (cs : List Char) : P Char := fun i =>
  match i with
  | [] => none
  | d :: rest => if cs.contains d then some (rest, d) else none

/-- nom `tag_no_case` (ASCII case-insensitive). -/
def tagNoCase (t : List Char) : P (List Char) := fun i =>
  let pre := i.take t.length
  if pre.length = t.length ∧ pre.map Char.toLower = t.map Char.toLower then
    some (i.drop t.length, pre)
  else none

/-- nom `opt`. -/
def optP (p : P α) : P (Option α) := fun i =>
  match p i with
  | none => some (i, none)
  | some (r, a) => some (r, some a)

/-- nom `alt` of two parsers. -/
def altP (p q : P α) : P α := fun i =>
  match p i with
  | none => q i
  | some r => some r

/-- nom `many0`: repeat until the parser fails, erroring (like nom) when it
succeeds without consuming input.  `fuel` is an artifact of the embedding:
it bounds the loop and is always instantiated above the input length, which
the consumption guard makes sufficient. -/
def many0 (p : P α) : Nat → P (List α)
  | 0 => fun _ => none
  | fuel + 1 => fun i =>
    match p i with
    | none => some (i, [])
    | some (i1, a) =>
      if i1.length = i.length then none
      else
        match many0 p fuel i1 with
        | none => none
        | some (i2, rest) => some (i2, a :: rest)

/-- `label` (src/parser/mod.rs line 220):
`recognize(pair(alpha1, alphanumeric0))`. -/
def label : P (List Char) := fun i => do
  let (i1, a) ← alpha1 i
  let (i2, b) ← alphanumeric0 i1
  pure (i2, a ++ b)

/-- `comment` (src/parser/mod.rs line 224):
`recognize(tuple((char(';'), not_line_ending)))`. -/
def comment : P (List Char) := fun i => do
  let (i1, c) ← charP ';' i
  let (i2, rest) ← notLineEnding i1
  pure (i2, c :: rest)

/-- The `Operation` enum private to src/parser/numeric_expr.rs (the binary
operator tags consumed by `fold_exprs`); named `ExprOp` here to keep it
apart from the opcode-with-modifier `Operation` of the line parser. -/
inductive ExprOp where
  | Add | Subtract | Multiply | Divide | Modulo
deriving DecidableEq, Repr

/-- `fold_exprs` (src/parser/numeric_expr.rs, lines 165-179):
left-associative folding of a parsed operator chain. -/
def fold_exprs (initial : NumericExpr)
    (remainder : List (ExprOp × NumericExpr)) : NumericExpr :=
  remainder.foldl
    (fun acc p =>
      match p.1 with
      | .Add => .Add acc p.2
      | .Subtract => .Subtract acc p.2
      | .Multiply => .Multiply acc p.2
      | .Divide => .Divide acc p.2
      | .Modulo => .Modulo acc p.2)
    initial

def charsToNat (cs : List Char) : Nat :=
  cs.foldl (fun acc c => acc * 10 + (c.toNat - ('0').toNat)) 0

/-- `number` (src/parser/numeric_expr.rs, lines 135-139):
`recognize(pair(opt(one_of("+-")), digit1))` fed to `str::parse::<i64>`. -/
def number : P Int := fun i => do
  let (i1, sgn) ← optP (oneOf ['+', '-']) i
  let (i2, ds) ← digit1 i1
  let n : Int := Int.ofNat (charsToNat ds)
  pure (i2, if sgn = some '-' then -n else n)

end Mars

namespace Mars

mutual

/-- `parens` (src/parser/numeric_expr.rs, lines 141-151).  The `fuel`
argument of these mutually recursive parsers is an artifact of the
embedding (nom recursion terminates by input consumption instead); every
entry point instantiates it above the input length, which suffices since
each `(` nesting level consumes input. -/
def parens : Nat → P NumericExpr
  | 0 => fun _ => none
  | fuel + 1 => fun i => do
    let (i, _) ← space0 i
    let (i, _) ← charP '(' i
    let (i, e) ← expr fuel i
    let (i, _) ← charP ')' i
    let (i, _) ← space0 i
    pure (i, NumericExpr.Paren e)

/-- `factor` (src/parser/numeric_expr.rs, lines 153-163): a space-delimited
number, label or parenthesised sub-expression, in that order. -/
def factor : Nat → P NumericExpr
  | 0 => fun _ => none
  | fuel + 1 => fun i =>
    altP
      (fun j => do
        let (j, _) ← space0 j
        let (j, n) ← number j
        let (j, _) ← space0 j
        pure (j, NumericExpr.Value (ExprValue.Number n)))
      (altP
        (fun j => do
          let (j, _) ← space0 j
          let (j, l) ← label j
          let (j, _) ← space0 j
          pure (j, NumericExpr.Value (ExprValue.Label (String.mk l))))
        (parens fuel))
      i

/-- One element of `term`'s `many0(alt(...))`: `*`, `/` or `%` followed by
a factor (src/parser/numeric_expr.rs, lines 183-196). -/
def mulOp : Nat → P (ExprOp × NumericExpr)
  | 0 => fun _ => none
  | fuel + 1 => fun i =>
    altP
      (fun j => do
        let (j, _) ← charP '*' j
        let (j, f) ← factor fuel j
        pure (j, (ExprOp.Multiply, f)))
      (altP
        (fun j => do
          let (j, _) ← charP '/' j
          let (j, f) ← factor fuel j
          pure (j, (ExprOp.Divide, f)))
        (fun j => do
          let (j, _) ← charP '%' j
          let (j, f) ← factor fuel j
          pure (j, (ExprOp.Modulo, f))))
      i

/-- `term` (src/parser/numeric_expr.rs, lines 181-199). -/
def term : Nat → P NumericExpr
  | 0 => fun _ => none
  | fuel + 1 => fun i => do
    let (i, initial) ← factor fuel i
    let (i, remainder) ← many0 (mulOp fuel) (i.length + 1) i
    pure (i, fold_exprs initial remainder)

/-- One element of `expr`'s `many0(alt(...))`: `+` or `-` followed by a
term (src/parser/numeric_expr.rs, lines 203-212). -/
def addOp : Nat → P (ExprOp × NumericExpr)
  | 0 => fun _ => none
  | fuel + 1 => fun i =>
    altP
      (fun j => do
        let (j, _) ← charP '+' j
        let (j, t) ← term fuel j
        pure (j, (ExprOp.Add, t)))
      (fun j => do
        let (j, _) ← charP '-' j
        let (j, t) ← term fuel j
        pure (j, (ExprOp.Subtract, t)))
      i

/-- `expr` (src/parser/numeric_expr.rs, lines 201-215). -/
def expr : Nat → P NumericExpr
  | 0 => fun _ => none
  | fuel + 1 => fun i => do
    let (i, initial) ← term fuel i
    let (i, remainder) ← many0 (addOp fuel) (i.length + 1) i
    pure (i, fold_exprs initial remainder)

end

/-- `expr` at an input-length fuel (the form the line parsers call). -/
def exprTop : P NumericExpr := fun i => expr (i.length + 1) i

end Mars

namespace Mars

/-- `definition` (src/parser/mod.rs, lines 78-85): `LABEL EQU <text>`,
where the text runs until `;`, end of line or end of input; the trailing
comment, if any, is consumed but dropped. -/
def definition : P (List Char × List Char) := fun i => do
  let (i, lab) ← label i
  let (i, _) ← space1 i
  let (i, _) ← tagNoCase ("EQU".toList) i
  let (i, _) ← space1 i
  let (i, e) ← takeTill (fun c => c = ';' || c = '\n' || c = '\r') i
  let (i, _) ← optP comment i
  pure (i, (lab, e))

/-- `org_statement` (src/parser/mod.rs, lines 87-93). -/
def org_statement : P NumericExpr := fun i => do
  let (i, _) ← space0 i
  let (i, _) ← tagNoCase ("ORG".toList) i
  let (i, _) ← space1 i
  let (i, res) ← exprTop i
  let (i, _) ← optP (fun j => do
      let (j, _) ← space0 j
      comment j) i
  pure (i, res)

/-- `address_mode` (src/parser/mod.rs, lines 95-108):
`one_of("#$@*{<}>")` mapped to the eight modes. -/
def address_mode : P AddressMode := fun i => do
  let (i1, c) ← oneOf ['#', '$', '@', '*', '\x7b', '<', '\x7d', '>'] i
  let m ←
    if c = '#' then some AddressMode.Immediate
    else if c = '$' then some AddressMode.Direct
    else if c = '@' then some AddressMode.BFieldIndirect
    else if c = '*' then some AddressMode.AFieldIndirect
    else if c = '\x7b' then some AddressMode.AFieldPredecrementIndirect
    else if c = '<' then some AddressMode.BFieldPredecrementIndirect
    else if c = '\x7d' then some AddressMode.AFieldPostincrementIndirect
    else if c = '>' then some AddressMode.BFieldPostincrementIndirect
    else none
  pure (i1, m)

/-- The 19 opcode tags of `opcode` (src/parser/mod.rs, lines 110-155) in
source order; `ORG` and `EQU` are parsed by the `alt` but reach the
`unreachable!()` arm of the map closure — a panic, modelled as `none`. -/
def opcodeTags : List (List Char × Option Opcode) :=
  [("DAT".toList, some .Dat), ("MOV".toList, some .Mov),
   ("ADD".toList, some .Add), ("SUB".toList, some .Sub),
   ("MUL".toList, some .Mul), ("DIV".toList, some .Div),
   ("MOD".toList, some .Mod), ("JMP".toList, some .Jmp),
   ("JMZ".toList, some .Jmz), ("JMN".toList, some .Jmn),
   ("DJN".toList, some .Djn), ("CMP".toList, some .Seq),
   ("SLT".toList, some .Slt), ("SPL".toList, some .Spl),
   ("SEQ".toList, some .Seq), ("SNE".toList, some .Sne),
   ("ORG".toList, none), ("EQU".toList, none),
   ("NOP".toList, some .Nop)]

def opcodeFrom : List (List Char × Option Opcode) → P Opcode
  | [] => fun _ => none
  | (t, m) :: rest => fun i =>
    match tagNoCase t i with
    | none => opcodeFrom rest i
    | some (r, _) =>
      match m with
      | none => none
      | some op => some (r, op)

/-- `opcode` (src/parser/mod.rs, lines 110-155). -/
def opcode : P Opcode := opcodeFrom opcodeTags

/-- The modifier tags of `modifier` (src/parser/mod.rs, lines 157-172) in
source order (`AB`/`BA` before the single letters). -/
def modifierTags : List (List Char × Modifier) :=
  [("AB".toList, .AB), ("BA".toList, .BA), ("A".toList, .A),
   ("B".toList, .B), ("F".toList, .F), ("X".toList, .X), ("I".toList, .I)]

def modifierFrom : List (List Char × Modifier) → P Modifier
  | [] => fun _ => none
  | (t, m) :: rest => fun i =>
    match tagNoCase t i with
    | none => modifierFrom rest i
    | some (r, _) => some (r, m)

/-- `modifier` (src/parser/mod.rs, lines 157-172). -/
def modifier : P Modifier := modifierFrom modifierTags

/-- `Opcode::default_modifier` (src/types.rs, lines 54-63). -/
def Opcode.default_modifier : Opcode → Modifier
  | .Dat | .Nop => .F
  | .Mov | .Seq | .Sne => .I
  | .Add | .Sub | .Mul | .Div | .Mod => .AB
  | .Jmp | .Jmz | .Jmn | .Djn | .Slt | .Spl => .B

/-- `Operation` of src/types.rs: an opcode with its (explicit or default)
modifier. -/
structure Operation where
  opcode : Opcode
  modifier : Modifier
deriving DecidableEq, Repr

/-- `operation` (src/parser/mod.rs, lines 174-182). -/
def operation : P Operation := fun i => do
  let (i, op) ← opcode i
  let (i, m) ← optP (fun j => do
      let (j, _) ← charP '.' j
      modifier j) i
  pure (i, { opcode := op, modifier := m.getD op.default_modifier })

/-- `Address` of src/types.rs: an optional-mode sigil (defaulting to
Direct) and an expression. -/
structure Address where
  mode : AddressMode
  expr : NumericExpr
deriving DecidableEq, Repr

/-- `address` (src/parser/mod.rs, lines 184-195). -/
def address : P Address := fun i => do
  let (i, m) ← optP address_mode i
  let (i, e) ← exprTop i
  pure (i, { mode := m.getD AddressMode.Direct, expr := e })

/-- `label_list` (src/parser/mod.rs, lines 228-230):
`terminated(many0(terminated(label, multispace1)), opt(char(':')))`. -/
def label_list : P (List (List Char)) := fun i => do
  let (i, ls) ← many0
    (fun j => do
      let (j, l) ← label j
      let (j, _) ← multispace1 j
      pure (j, l))
    (i.length + 1) i
  let (i, _) ← optP (charP ':') i
  pure (i, ls)

/-- `Instruction` of src/types.rs as produced by the line parser: label
list, operation and one or two operand fields. -/
structure Instruction where
  label_list : List (List Char)
  operation : Operation
  field_a : Address
  field_b : Option Address
deriving DecidableEq, Repr

/-- `instruction` (src/parser/mod.rs, lines 197-218). -/
def instruction : P Instruction := fun i => do
  let (i, _) ← space0 i
  let (i, labels) ← label_list i
  let (i, op) ← operation i
  let (i, _) ← space1 i
  let (i, a1) ← address i
  let (i, _) ← space0 i
  let (i, a2) ← optP (fun j => do
      let (j, _) ← space0 j
      let (j, _) ← charP ',' j
      let (j, _) ← space0 j
      address j) i
  let (i, _) ← space0 i
  let (i, _) ← optP comment i
  pure (i, { label_list := labels, operation := op,
             field_a := a1, field_b := a2 })

/-- `Line` of src/parser/mod.rs (lines 42-48). -/
inductive Line where
  | Instruction (ins : Mars.Instruction)
  | Comment (s : List Char)
  | OrgStatement (e : NumericExpr)
  | Definition (label : List Char) (defn : List Char)
deriving DecidableEq, Repr

/-- `line` (src/parser/mod.rs, lines 50-70): peek-dispatch between
definition, comment, ORG statement and instruction, with surrounding
horizontal whitespace stripped. -/
def line : P Line := fun i => do
  let (i, _) ← space0 i
  let (i, l) ←
    if (definition i).isSome then
      (definition i).map fun r => (r.1, Line.Definition r.2.1 r.2.2)
    else if (comment i).isSome then
      (comment i).map fun r => (r.1, Line.Comment r.2)
    else if (org_statement i).isSome then
      (org_statement i).map fun r => (r.1, Line.OrgStatement r.2)
    else
      (instruction i).map fun r => (r.1, Line.Instruction r.2)
  let (i, _) ← space0 i
  pure (i, l)

/-- The loop of nom's `separated_list` after the first element; `fuel` is
an embedding artifact instantiated above the input length (sufficient
because of the non-consumption guards, as in nom). -/
def sepListLoop (sep : P β) (p : P α) : Nat → List α → P (List α)
  | 0, _ => fun _ => none
  | fuel + 1, acc => fun i =>
    match sep i with
    | none => some (i, acc)
    | some (i1, _) =>
      if i1.length = i.length then none
      else
        match p i1 with
        | none => some (i, acc)
        | some (i2, a) => sepListLoop sep p fuel (acc ++ [a]) i2

/-- nom's `separated_list` (nom 5): zero or more `p` separated by `sep`,
failing when an element or separator succeeds without consuming input. -/
def separated_list (sep : P β) (p : P α) : P (List α) := fun i =>
  match p i with
  | none => some (i, [])
  | some (i1, a) =>
    if i1.length = i.length then none
    else sepListLoop sep p (i1.length + 1) [a] i1

/-- `lines` (src/parser/mod.rs, lines 72-76):
`separated_list(multispace1, line)` followed by an optional case-insensitive
`END`; the input need not be fully consumed. -/
def lines : P (List Line) := fun i => do
  let (i, ls) ← separated_list multispace1 line i
  let (i, _) ← optP (tagNoCase ("END".toList)) i
  pure (i, ls)

end Mars

namespace Mars

/-- `a` starts with `b` (plain prefix test on character lists). -/
def startsWith : List Char → List Char → Bool
  | _, [] => true
  | [], _ :: _ => false
  | c :: s, p :: ps => c = p && startsWith s ps

/-- The scan of Rust's `str::replace`, structurally recursive on a fuel
bound: the fuel is always instantiated with the text length, which
suffices because every step consumes at least one character (`pat` is
non-empty at every call site). -/
def rustReplaceAux (pat repl : List Char) : Nat → List Char → List Char
  | 0, s => s
  | fuel + 1, s =>
    match s with
    | [] => []
    | c :: rest =>
      if startsWith (c :: rest) pat then
        repl ++ rustReplaceAux pat repl fuel ((c :: rest).drop pat.length)
      else
        c :: rustReplaceAux pat repl fuel rest

/-- Rust's `str::replace(pat, repl)`: replace every non-overlapping
occurrence of `pat`, scanning left to right.  (With an empty pattern Rust
inserts `repl` at every character boundary; the labels substituted below
are never empty, and the empty-pattern case is returned unchanged.) -/
def rustReplace (s pat repl : List Char) : List Char :=
  if pat = [] then s else rustReplaceAux pat repl s.length s

/-- Rust's `str::trim` restricted to the ASCII whitespace that can appear
in the modelled sources. -/
def trimChars (s : List Char) : List Char :=
  ((s.dropWhile Char.isWhitespace).reverse.dropWhile Char.isWhitespace).reverse

/-- `replace_definitions` (src/parser/mod.rs, lines 28-40): parse the
source into lines, then, for each `Definition(label, def)` line in order,
replace every occurrence of `label` in the full original text by
`def.trim()` (`String::replace`).  `none` models a parse error. -/
def replace_definitions (s : List Char) : Option (List Char) :=
  match lines s with
  | none => none
  | some (_, ls) =>
    some (ls.foldl
      (fun replaced l =>
        match l with
        | .Definition lab d => rustReplace replaced lab (trimChars d)
        | _ => replaced)
      s)

/-- Whether a parsed line list contains a `Definition` line. -/
def containsDefinition (ls : List Line) : Bool :=
  ls.any fun l =>
    match l with
    | .Definition _ _ => true
    | _ => false

end Mars

namespace Mars

/-- C9 counterexample: for the source `a EQU ba`, `replace_definitions`
does not delete the Definition line's span and replaces the label even
inside the longer token `ba`, producing `ba EQU bba` — and re-parsing that
output yields a Definition line again, contradicting the claim. -/
theorem C9_counterexample :
    replace_definitions ("a EQU ba".toList) = some ("ba EQU bba".toList) ∧
    ((lines ("ba EQU bba".toList)).map fun r => containsDefinition r.2) =
      some true :=
  ⟨by decide, by decide⟩

/-- C9 amended: definition substitution is plain textual replace-all — each
defined label is replaced wherever it occurs as a substring, including
inside longer identifiers, and the Definition line's span is kept (its own
label occurrence substituted like any other): for
`step EQU 4\n; use stepper here` the result is `4 EQU 4\n; use 4per here`,
the label inside `stepper` replaced and the `EQU` line surviving. -/
theorem C9_plain_replace_all :
    replace_definitions ("step EQU 4\n; use stepper here".toList) =
      some ("4 EQU 4\n; use 4per here".toList) ∧
    ((lines ("step EQU 4\n; use stepper here".toList)).map fun r =>
        r.2.length) = some 2 :=
  ⟨by decide, by decide⟩

end Mars
